import Mathlib

/-!
Verification of the restaurant top-10 ranking program (`main.py`).

The program is embedded shallowly over exact rationals:

* JSON scalars, records (Python dicts, modeled as association lists in key
  insertion order) and top-level documents are explicit inductive types.
* Python's `math.sin` is an uninterpreted parameter `sinF : ℚ → ℚ`; no claim
  needs trigonometric facts, only how the program wires `sin` into the score.
* Python's `round(x, 2)` is modeled exactly by `py_round2` over `ℚ`; the
  tie-breaking behaviour of binary64 `round` is outside this exact model.
* Fallible Python code (KeyError / TypeError) is embedded in `Except PyErr`.
* The two HTTP calls are modeled by their request/response data only.
-/

/-- A scalar JSON value (the field values of a restaurant record). -/
inductive JVal where
  | null
  | bool (b : Bool)
  | num (q : ℚ)
  | str (s : String)
deriving DecidableEq, Repr

/-- The fields of a decoded JSON object, in key order, keys unique after
parsing (`json.load` keeps one binding per key). -/
abbrev Fields := List (String × JVal)

/-- One element of the decoded top-level JSON array: either a JSON object
(a restaurant record) or a scalar. -/
inductive JEntry where
  | obj (fields : Fields)
  | scalar (v : JVal)
deriving DecidableEq, Repr

/-- A decoded top-level JSON document: an array of entries, an object, or a
scalar.  Object values are again documents, so that the `data` envelope can
wrap any document. -/
inductive JTop where
  | arr (entries : List JEntry)
  | obj (kvs : List (String × JTop))
  | scal (v : JVal)

/-- First-binding lookup in an association list (Python `d[k]` / `d.get(k)`;
parsed JSON objects have unique keys, so first binding is the binding). -/
def lookupKV {α : Type} : List (String × α) → String → Option α
  | [], _ => none
  | (k', v) :: rest, k => if k' = k then some v else lookupKV rest k

/-- Python `d[k] = v` on a dict: overwrite the value at an existing key in
place, else append the new key at the end (dicts keep insertion order). -/
def setKV {α : Type} : List (String × α) → String → α → List (String × α)
  | [], k, v => [(k, v)]
  | (k', v') :: rest, k, v =>
    if k' = k then (k', v) :: rest else (k', v') :: setKV rest k v

/-- The Python exceptions this program can raise or catch. -/
inductive PyErr where
  | keyError (k : String)
  | typeError
deriving DecidableEq, Repr

/-- Python `entry[k]`: KeyError when a dict lacks the key, TypeError when the
entry is not a dict (string/number indexing with a string key). -/
def getItem (e : JEntry) (k : String) : Except PyErr JVal :=
  match e with
  | .obj fields =>
    match lookupKV fields k with
    | some v => .ok v
    | none => .error (.keyError k)
  | .scalar _ => .error .typeError

/-- A value usable in Python arithmetic (`int`/`float`/`bool`; `True` is 1,
`False` is 0).  `none` means the arithmetic of `calculate_score` raises
TypeError on this value. -/
def toNum : JVal → Option ℚ
  | .num q => some q
  | .bool b => some (if b then 1 else 0)
  | _ => none

/-- Python truthiness of a scalar. -/
def jvalTruthy : JVal → Bool
  | .null => false
  | .bool b => b
  | .num q => decide (q ≠ 0)
  | .str s => decide (s ≠ "")

/-- Python truthiness of a decoded document (`if not validated_data`). -/
def jtopTruthy : JTop → Bool
  | .arr entries => !entries.isEmpty
  | .obj kvs => !kvs.isEmpty
  | .scal v => jvalTruthy v

/-- Python `round(q, 2)` in exact arithmetic: round `q` to a multiple of
1/100.  `round` here is Mathlib's `round` (ties away from the floor); the
source's `round` acts on binary64 where the exact-tie case is about the
floating-point representation and is outside this model (claim C5). -/
def py_round2 (q : ℚ) : ℚ := ((round (q * 100) : ℤ) : ℚ) / 100

/-- `calculate_score` from the source: read `rating`, `distance_from_me` and
`id` (KeyError propagates in that order), then
`score = (rating * 10 - distance * 0.5 + math.sin(id) * 2) * 100 + 0.5` and
`final_score = round(score / 100, 2)`.  Non-numeric field values make the
arithmetic raise TypeError. -/
def calculate_score (sinF : ℚ → ℚ) (entry : JEntry) : Except PyErr ℚ :=
  match getItem entry "rating" with
  | .error err => .error err
  | .ok rv =>
    match getItem entry "distance_from_me" with
    | .error err => .error err
    | .ok dv =>
      match getItem entry "id" with
      | .error err => .error err
      | .ok iv =>
        match toNum rv, toNum dv, toNum iv with
        | some rating, some distance, some id_ =>
          .ok (py_round2 (((rating * 10 - distance * (1/2) + sinF id_ * 2) * 100 + 1/2) / 100))
        | _, _, _ => .error .typeError

/-- How `load_validated_data` obtains its document: the input file may be
missing (`FileNotFoundError`), hold invalid JSON (`json.JSONDecodeError`), or
decode to a document. -/
inductive LoadInput where
  | missing
  | malformed
  | parsed (doc : JTop)

/-- `load_validated_data` from the source: on a missing file or invalid JSON
it prints and returns `[]`; otherwise, if the document is a dict containing
key `data`, the value under `data` is used, else the document itself. -/
def load_validated_data : LoadInput → JTop
  | .missing => .arr []
  | .malformed => .arr []
  | .parsed doc =>
    match doc with
    | .obj kvs =>
      match lookupKV kvs "data" with
      | some d => d
      | none => .obj kvs
    | _ => doc

/-- The body of the scoring loop in `main`: `entry["score"] =
calculate_score(entry)`, with `KeyError`/`TypeError` caught and the entry left
unchanged (`continue`).  Note the entry is NOT removed from the list. -/
def score_entry (sinF : ℚ → ℚ) (e : JEntry) : JEntry :=
  match calculate_score sinF e, e with
  | .ok s, .obj fields => .obj (setKV fields "score" (.num s))
  | _, _ => e

/-- The scoring loop of `main` over the whole list. -/
def score_pass (sinF : ℚ → ℚ) (entries : List JEntry) : List JEntry :=
  entries.map (score_entry sinF)

/-- Lexicographic comparison of char lists by code point (Python string
comparison, case-sensitive). -/
def listLeB : List Char → List Char → Bool
  | [], _ => true
  | _ :: _, [] => false
  | a :: as, b :: bs =>
    if a.toNat < b.toNat then true
    else if b.toNat < a.toNat then false
    else listLeB as bs

/-- Python string comparison `a <= b`. -/
def strLe (a b : String) : Bool := listLeB a.data b.data

/-- The sort key tuple of the comparator in `main`:
`(-x["score"], -x["rating"], x["distance_from_me"], x["restaurant_name"])`. -/
abbrev SKey := ℚ × ℚ × ℚ × String

/-- Building the sort key tuple for one entry.  The four lookups raise
KeyError on a missing key (in tuple order); unary minus raises TypeError on a
non-numeric score or rating.  Python would raise the TypeError for an
ill-typed `distance_from_me`/`restaurant_name` only when a tie reaches that
component during some comparison; this model checks those two types when the
key is built.  Every claim concerns entries that are fully typed or that fail
at a lookup or negation, where the two coincide. -/
def sort_key_of (e : JEntry) : Except PyErr SKey :=
  match getItem e "score" with
  | .error err => .error err
  | .ok sv =>
    match getItem e "rating" with
    | .error err => .error err
    | .ok rv =>
      match getItem e "distance_from_me" with
      | .error err => .error err
      | .ok dv =>
        match getItem e "restaurant_name" with
        | .error err => .error err
        | .ok nv =>
          match toNum sv, toNum rv, toNum dv, nv with
          | some s, some r, some d, .str n => .ok (-s, -r, d, n)
          | _, _, _, _ => .error .typeError

/-- Non-strict lexicographic order on sort key tuples: `a` may come no later
than `b` in the ascending sorted output.  Python's sort is ascending and
stable for the strict tuple order `<`; with the total component orders used
here, "may come no later" is exactly this non-strict lexicographic order. -/
def tupLe (a b : SKey) : Prop :=
  a.1 < b.1 ∨ (a.1 = b.1 ∧ (a.2.1 < b.2.1 ∨ (a.2.1 = b.2.1 ∧
    (a.2.2.1 < b.2.2.1 ∨ (a.2.2.1 = b.2.2.1 ∧ strLe a.2.2.2 b.2.2.2 = true)))))

instance (a b : SKey) : Decidable (tupLe a b) := by unfold tupLe; infer_instance

/-- The sort order on decorated entries: compare the keys only. -/
def keyRel (p q : JEntry × SKey) : Prop := tupLe p.2 q.2

instance : DecidableRel keyRel := fun p q => inferInstanceAs (Decidable (tupLe p.2 q.2))

/-- CPython's `sorted(..., key=f)` first decorates each element with its key,
left to right — which fixes the order in which key construction can raise —
and then stable-sorts the decorated list. -/
def decorate : List JEntry → Except PyErr (List (JEntry × SKey))
  | [] => .ok []
  | e :: rest =>
    match sort_key_of e with
    | .error err => .error err
    | .ok key =>
      match decorate rest with
      | .error err => .error err
      | .ok keyed => .ok ((e, key) :: keyed)

/-- The stable ascending sort of the decorated list.  A stable ascending sort
is extensionally unique, and `List.insertionSort` inserts earlier elements
before key-equal later ones, so it models CPython's stable sort exactly. -/
def sort_decorated (keyed : List (JEntry × SKey)) : List (JEntry × SKey) :=
  List.insertionSort keyRel keyed

/-- `sorted_data = sorted(validated_data, key=...)` followed by
`top_10_results = sorted_data[:10]` from `main`. -/
def rank_top10 (entries : List JEntry) : Except PyErr (List JEntry) :=
  match decorate entries with
  | .error err => .error err
  | .ok keyed => .ok (((sort_decorated keyed).map Prod.fst).take 10)

/-- An output row: exactly the five projected fields, in the construction
order of the dict literal in `main`. -/
structure RRec where
  id : JVal
  restaurant_name : JVal
  rating : JVal
  distance_from_me : JVal
  score : JVal
deriving DecidableEq, Repr

/-- The output projection of one entry in `main` (the dict literal; lookups
happen in field order and a missing field raises KeyError). -/
def project_entry (e : JEntry) : Except PyErr RRec :=
  match getItem e "id" with
  | .error err => .error err
  | .ok idv =>
    match getItem e "restaurant_name" with
    | .error err => .error err
    | .ok namev =>
      match getItem e "rating" with
      | .error err => .error err
      | .ok ratingv =>
        match getItem e "distance_from_me" with
        | .error err => .error err
        | .ok distancev =>
          match getItem e "score" with
          | .error err => .error err
          | .ok scorev => .ok ⟨idv, namev, ratingv, distancev, scorev⟩

/-- The output list comprehension of `main`, left to right. -/
def project_all : List JEntry → Except PyErr (List RRec)
  | [] => .ok []
  | e :: rest =>
    match project_entry e with
    | .error err => .error err
    | .ok row =>
      match project_all rest with
      | .error err => .error err
      | .ok rows => .ok (row :: rows)

/-- The response to the registration GET: HTTP status and decoded JSON body
(`none` body = the body is not valid JSON). -/
structure HResp where
  status : Nat
  body : Option JTop

/-- `get_authorization_token` from the source.  The argument is the outcome
of `requests.get` (`none` = transport error, raising `RequestException`).
`raise_for_status()` raises for status >= 400; an unparseable body raises the
(caught) `requests` JSON error; `.get` on a non-dict raises AttributeError,
which the function does not catch (`Except.error`); a missing or falsy token
yields `None`.  Result `Except.ok none` is the function returning `None`. -/
def get_authorization_token (resp : Option HResp) : Except PyErr (Option JTop) :=
  match resp with
  | none => .ok none
  | some r =>
    if 400 ≤ r.status then .ok none
    else
      match r.body with
      | none => .ok none
      | some bodyDoc =>
        match bodyDoc with
        | .obj kvs =>
          match (lookupKV kvs "data").getD (.obj []) with
          | .obj dataKvs =>
            match lookupKV dataKvs "authorizationToken" with
            | some tok => if jtopTruthy tok then .ok (some tok) else .ok none
            | none => .ok none
          | _ => .error .typeError
        | _ => .error .typeError

/-- The observable effects of one full run: the rows written to the output
file (`none` = no write happened), whether the registration GET was issued,
and the rows POSTed for verification (`none` = no POST). -/
structure Effects where
  wrote : Option (List RRec)
  fetched : Bool
  posted : Option (List RRec)
deriving DecidableEq, Repr

/-- The data phase of `main`: load, early-exit on falsy data, score every
entry in place, sort by the key tuple, truncate to 10, project to output rows
and write them.  `Except.ok none` is the "No data to process" early exit;
`Except.error` is an uncaught exception aborting the run.  A truthy non-array
document also crashes the real program (iteration or indexing raises), which
the model reports as a TypeError without tracing where. -/
def main_core (sinF : ℚ → ℚ) (input : LoadInput) : Except PyErr (Option (List RRec)) :=
  let validated_data := load_validated_data input
  match jtopTruthy validated_data, validated_data with
  | false, _ => .ok none
  | true, .arr entries =>
    (match rank_top10 (score_pass sinF entries) with
     | .error err => .error err
     | .ok top_10_results =>
       match project_all top_10_results with
       | .error err => .error err
       | .ok output => .ok (some output))
  | true, _ => .error .typeError

/-- The whole of `main`: the data phase, then the token fetch, then the
submission.  Token-fetch returning `None` exits before any POST; a token
makes `submit_results` POST the output (its own HTTP outcome is caught and
logged, so it never changes control flow). -/
def py_main (sinF : ℚ → ℚ) (input : LoadInput) (resp : Option HResp) :
    Except PyErr Effects :=
  match main_core sinF input with
  | .error err => .error err
  | .ok none => .ok ⟨none, false, none⟩
  | .ok (some output) =>
    match get_authorization_token resp with
    | .error err => .error err
    | .ok none => .ok ⟨some output, true, none⟩
    | .ok (some _) => .ok ⟨some output, true, some output⟩

/-- Following the spec's words (§4.3): given the field quadruples
`(score, rating, distance_from_me, restaurant_name)` of two records, the
first may be placed no later than the second when its score is larger, or
scores tie and its rating is larger, or those tie and its distance is
smaller, or those tie and its name is lexicographically no later (ties in
all four are unordered and left to stability). -/
def spec_before (a b : ℚ × ℚ × ℚ × String) : Prop :=
  b.1 < a.1 ∨ (a.1 = b.1 ∧ (b.2.1 < a.2.1 ∨ (a.2.1 = b.2.1 ∧
    (a.2.2.1 < b.2.2.1 ∨ (a.2.2.1 = b.2.2.1 ∧ strLe a.2.2.2 b.2.2.2 = true)))))

/-- Recover the spec's field quadruple `(score, rating, distance, name)` from
the comparator key tuple `(-score, -rating, distance, name)`. -/
def spec_key (k : SKey) : ℚ × ℚ × ℚ × String := (-k.1, -k.2.1, k.2.2.1, k.2.2.2)

/-- The spec-level field quadruple `(score, rating, distance, name)` of an
entry, when its four sort fields exist and are well typed. -/
def entry_fields (e : JEntry) : Option (ℚ × ℚ × ℚ × String) :=
  ((sort_key_of e).toOption).map spec_key

/-- Following the spec's words (§4.2, §8): `raw = (rating * 10 - distance * 0.5
+ sin(id) * 2) * 100 + 0.5` and `score = round(raw / 100, 2)`, a pure function
of the three numbers `rating`, `distance_from_me`, `id`. -/
def spec_score (sinF : ℚ → ℚ) (rating distance id_ : ℚ) : ℚ :=
  py_round2 (((rating * 10 - distance * (1/2) + sinF id_ * 2) * 100 + 1/2) / 100)

/-- The sine used in witness statements (claims need no trigonometric facts,
only how the program wires the sine into the score). -/
def sin0 : ℚ → ℚ := fun _ => 0

/-- A fully populated restaurant record used as concrete witness input. -/
def fieldsA : Fields :=
  [("id", .num 1), ("restaurant_name", .str "A"), ("rating", .num 4),
   ("distance_from_me", .num 2)]

/-- The entry holding `fieldsA`. -/
def entryA : JEntry := .obj fieldsA

/-- The score the program computes for `entryA` under `sin0`. -/
def scoreA : ℚ := spec_score sin0 4 2 1

/-- A record agreeing with `fieldsA` on `rating`, `distance_from_me` and
`id`, but with a different name, an extra field, and another field order. -/
def entryA2 : JEntry :=
  .obj [("restaurant_name", .str "Zzz"), ("extra", .bool true), ("id", .num 1),
        ("rating", .num 4), ("distance_from_me", .num 2)]

/-- A scored record: `entryA`'s fields plus a stored score of 7. -/
def entryS1 : JEntry :=
  .obj [("id", .num 1), ("restaurant_name", .str "A"), ("rating", .num 4),
        ("distance_from_me", .num 2), ("score", .num 7)]

/-- A scored record that outranks `entryS1`. -/
def entryS2 : JEntry :=
  .obj [("id", .num 2), ("restaurant_name", .str "B"), ("rating", .num 5),
        ("distance_from_me", .num 1), ("score", .num 9)]

/-- The decoration of `[entryS1, entryS2]`. -/
def keyedS : List (JEntry × SKey) :=
  [(entryS1, (-7, -4, 2, "A")), (entryS2, (-9, -5, 1, "B"))]

/-- A scored record with the same four sort fields as `entryS1` but another
identity. -/
def entryT2 : JEntry :=
  .obj [("id", .num 2), ("restaurant_name", .str "A"), ("rating", .num 4),
        ("distance_from_me", .num 2), ("score", .num 7)]

/-- The decoration of `[entryS1, entryT2]`: both carry the same key. -/
def keyedT : List (JEntry × SKey) :=
  [(entryS1, (-7, -4, 2, "A")), (entryT2, (-7, -4, 2, "A"))]

/-- The single-row output the program computes for `[entryA]`. -/
def outputA : List RRec := [⟨.num 1, .str "A", .num 4, .num 2, .num scoreA⟩]

/-- A token-fetch response with a 500 status (the token in the body is
ignored because `raise_for_status` fires first). -/
def respFail : Option HResp :=
  some ⟨500, some (.obj [("data", .obj [("authorizationToken", .scal (.str "tok"))])])⟩

/-- A record with no `rating` (and none of the other scoreable fields). -/
def entryNoRating : JEntry := .obj [("id", .num 7)]

theorem listLeB_refl : ∀ l : List Char, listLeB l l = true
  | [] => rfl
  | a :: as => by simp [listLeB, listLeB_refl as]

theorem listLeB_total : ∀ a b : List Char, listLeB a b = true ∨ listLeB b a = true
  | [], _ => Or.inl rfl
  | _ :: _, [] => Or.inr rfl
  | a :: as, b :: bs => by
    simp only [listLeB]
    rcases listLeB_total as bs with h | h <;> split_ifs <;> simp [h]

theorem listLeB_trans : ∀ a b c : List Char,
    listLeB a b = true → listLeB b c = true → listLeB a c = true
  | [], _, _, _, _ => rfl
  | _ :: _, [], _, h, _ => by simp [listLeB] at h
  | _ :: _, _ :: _, [], _, h => by simp [listLeB] at h
  | a :: as, b :: bs, c :: cs, h₁, h₂ => by
    simp only [listLeB] at h₁ h₂ ⊢
    split_ifs at h₁ h₂ ⊢ <;>
      first
        | rfl
        | omega
        | exact listLeB_trans as bs cs h₁ h₂

theorem strLe_refl (s : String) : strLe s s = true := listLeB_refl _

theorem strLe_total (a b : String) : strLe a b = true ∨ strLe b a = true :=
  listLeB_total _ _

theorem strLe_trans {a b c : String} (h₁ : strLe a b = true) (h₂ : strLe b c = true) :
    strLe a c = true :=
  listLeB_trans _ _ _ h₁ h₂

theorem tupLe_refl (a : SKey) : tupLe a a :=
  Or.inr ⟨rfl, Or.inr ⟨rfl, Or.inr ⟨rfl, strLe_refl _⟩⟩⟩

theorem tupLe_total (a b : SKey) : tupLe a b ∨ tupLe b a := by
  rcases lt_trichotomy a.1 b.1 with h | h | h
  · exact Or.inl (Or.inl h)
  · rcases lt_trichotomy a.2.1 b.2.1 with h' | h' | h'
    · exact Or.inl (Or.inr ⟨h, Or.inl h'⟩)
    · rcases lt_trichotomy a.2.2.1 b.2.2.1 with h'' | h'' | h''
      · exact Or.inl (Or.inr ⟨h, Or.inr ⟨h', Or.inl h''⟩⟩)
      · rcases strLe_total a.2.2.2 b.2.2.2 with hs | hs
        · exact Or.inl (Or.inr ⟨h, Or.inr ⟨h', Or.inr ⟨h'', hs⟩⟩⟩)
        · exact Or.inr (Or.inr ⟨h.symm, Or.inr ⟨h'.symm, Or.inr ⟨h''.symm, hs⟩⟩⟩)
      · exact Or.inr (Or.inr ⟨h.symm, Or.inr ⟨h'.symm, Or.inl h''⟩⟩)
    · exact Or.inr (Or.inr ⟨h.symm, Or.inl h'⟩)
  · exact Or.inr (Or.inl h)

theorem tupLe_trans {a b c : SKey} (h₁ : tupLe a b) (h₂ : tupLe b c) : tupLe a c := by
  rcases h₁ with h₁ | ⟨e₁, h₁⟩
  · rcases h₂ with h₂ | ⟨e₂, h₂⟩
    · exact Or.inl (h₁.trans h₂)
    · exact Or.inl (e₂ ▸ h₁)
  · rcases h₂ with h₂ | ⟨e₂, h₂⟩
    · exact Or.inl (by rw [e₁]; exact h₂)
    · refine Or.inr ⟨e₁.trans e₂, ?_⟩
      rcases h₁ with h₁ | ⟨f₁, h₁⟩
      · rcases h₂ with h₂ | ⟨f₂, h₂⟩
        · exact Or.inl (h₁.trans h₂)
        · exact Or.inl (f₂ ▸ h₁)
      · rcases h₂ with h₂ | ⟨f₂, h₂⟩
        · exact Or.inl (by rw [f₁]; exact h₂)
        · refine Or.inr ⟨f₁.trans f₂, ?_⟩
          rcases h₁ with h₁ | ⟨g₁, h₁⟩
          · rcases h₂ with h₂ | ⟨g₂, h₂⟩
            · exact Or.inl (h₁.trans h₂)
            · exact Or.inl (g₂ ▸ h₁)
          · rcases h₂ with h₂ | ⟨g₂, h₂⟩
            · exact Or.inl (by rw [g₁]; exact h₂)
            · exact Or.inr ⟨g₁.trans g₂, strLe_trans h₁ h₂⟩

theorem spec_key_spec_key (k : SKey) : spec_key (spec_key k) = k := by
  obtain ⟨a, b, c, d⟩ := k
  simp [spec_key]

/-- The code's key-tuple order is exactly the spec's composite record
order. -/
theorem tupLe_iff_spec (k₁ k₂ : SKey) :
    tupLe k₁ k₂ ↔ spec_before (spec_key k₁) (spec_key k₂) := by
  simp [tupLe, spec_before, spec_key, neg_lt_neg_iff, neg_inj]

theorem decorate_map_fst :
    ∀ (entries : List JEntry) (keyed : List (JEntry × SKey)),
      decorate entries = .ok keyed → keyed.map Prod.fst = entries := by
  intro entries
  induction entries with
  | nil =>
    intro keyed h
    simp only [decorate] at h
    cases h
    rfl
  | cons e rest ih =>
    intro keyed h
    simp only [decorate] at h
    cases hk : sort_key_of e with
    | error err => rw [hk] at h; cases h
    | ok key =>
      rw [hk] at h
      cases hd : decorate rest with
      | error err => rw [hd] at h; cases h
      | ok keyed' =>
        rw [hd] at h
        cases h
        simp [ih _ hd]

theorem decorate_keys :
    ∀ (entries : List JEntry) (keyed : List (JEntry × SKey)),
      decorate entries = .ok keyed → ∀ p ∈ keyed, sort_key_of p.1 = .ok p.2 := by
  intro entries
  induction entries with
  | nil =>
    intro keyed h
    simp only [decorate] at h
    cases h
    intro p hp
    cases hp
  | cons e rest ih =>
    intro keyed h
    simp only [decorate] at h
    cases hk : sort_key_of e with
    | error err => rw [hk] at h; cases h
    | ok key =>
      rw [hk] at h
      cases hd : decorate rest with
      | error err => rw [hd] at h; cases h
      | ok keyed' =>
        rw [hd] at h
        cases h
        intro p hp
        rcases List.mem_cons.mp hp with hp | hp
        · subst hp; exact hk
        · exact ih _ hd p hp

/-- Stability of the sort at the decorated level: the subsequence of entries
carrying one fixed key tuple is unchanged by the sort. -/
theorem sort_filter_eq (keyed : List (JEntry × SKey)) (k : SKey) :
    (sort_decorated keyed).filter (fun p => decide (p.2 = k))
      = keyed.filter (fun p => decide (p.2 = k)) := by
  have hpw : (keyed.filter (fun p => decide (p.2 = k))).Pairwise keyRel := by
    refine List.pairwise_of_forall_mem_list ?_
    intro a ha b hb
    have ha' := of_decide_eq_true (List.mem_filter.mp ha).2
    have hb' := of_decide_eq_true (List.mem_filter.mp hb).2
    unfold keyRel
    rw [ha', hb']
    exact tupLe_refl k
  have hsub : List.Sublist (keyed.filter (fun p => decide (p.2 = k))) (sort_decorated keyed) :=
    List.sublist_insertionSort hpw (List.filter_sublist _)
  have hsub2 : List.Sublist (keyed.filter (fun p => decide (p.2 = k)))
      ((sort_decorated keyed).filter (fun p => decide (p.2 = k))) := by
    have heq : (keyed.filter (fun p => decide (p.2 = k))).filter
        (fun p => decide (p.2 = k)) = keyed.filter (fun p => decide (p.2 = k)) :=
      List.filter_eq_self.mpr (fun a ha => (List.mem_filter.mp ha).2)
    have hh := hsub.filter (fun p => decide (p.2 = k))
    rwa [heq] at hh
  have hperm : List.Perm ((sort_decorated keyed).filter (fun p => decide (p.2 = k)))
      (keyed.filter (fun p => decide (p.2 = k))) :=
    (List.perm_insertionSort keyRel keyed).filter _
  exact (hsub2.eq_of_length hperm.length_eq.symm).symm

theorem entry_fields_eq_iff (e : JEntry) (f : ℚ × ℚ × ℚ × String) :
    entry_fields e = some f ↔ sort_key_of e = .ok (spec_key f) := by
  cases hsk : sort_key_of e with
  | error err => simp [entry_fields, hsk, Except.toOption]
  | ok k =>
    simp only [entry_fields, hsk, Except.toOption]
    constructor
    · intro h
      have h2 : spec_key k = f := by simpa using h
      rw [← h2, spec_key_spec_key]
    · intro h
      have h2 : k = spec_key f := Except.ok.inj h
      simp [h2, spec_key_spec_key]

/-- Transport a key-based filter through the undecoration `map Prod.fst`. -/
theorem filter_map_fst (l : List (JEntry × SKey)) (k : SKey)
    (hl : ∀ p ∈ l, sort_key_of p.1 = .ok p.2) :
    (l.map Prod.fst).filter (fun e => decide (entry_fields e = some (spec_key k)))
      = (l.filter (fun p => decide (p.2 = k))).map Prod.fst := by
  induction l with
  | nil => rfl
  | cons p rest ih =>
    have hp := hl p (List.mem_cons_self p rest)
    have hcond : (decide (entry_fields p.1 = some (spec_key k))) = (decide (p.2 = k)) := by
      by_cases h : p.2 = k
      · subst h
        simp [entry_fields_eq_iff, hp, spec_key_spec_key]
      · have hne : ¬ entry_fields p.1 = some (spec_key k) := by
          rw [entry_fields_eq_iff, hp]
          simp only [Except.ok.injEq]
          rw [spec_key_spec_key]
          exact h
        simp [hne, h]
    have ihr := ih (fun q hq => hl q (List.mem_cons_of_mem _ hq))
    simp only [List.map_cons, List.filter_cons, hcond]
    by_cases h : p.2 = k
    · simp [h, ihr]
    · simp [h, ihr]

theorem lookupKV_setKV_ne {α : Type} (kvs : List (String × α)) (k k' : String) (v : α)
    (h : k' ≠ k) : lookupKV (setKV kvs k v) k' = lookupKV kvs k' := by
  induction kvs with
  | nil => simp [setKV, lookupKV, Ne.symm h]
  | cons kv rest ih =>
    obtain ⟨k₀, v₀⟩ := kv
    by_cases h₀ : k₀ = k
    · subst h₀
      simp [setKV, lookupKV, Ne.symm h]
    · by_cases h₁ : k₀ = k'
      · simp [setKV, lookupKV, h₀, h₁, h]
      · simp [setKV, lookupKV, h₀, h₁, h, ih]

theorem lookupKV_setKV_self {α : Type} (kvs : List (String × α)) (k : String) (v : α) :
    lookupKV (setKV kvs k v) k = some v := by
  induction kvs with
  | nil => simp [setKV, lookupKV]
  | cons kv rest ih =>
    obtain ⟨k₀, v₀⟩ := kv
    by_cases h₀ : k₀ = k
    · subst h₀
      simp [setKV, lookupKV]
    · simp [setKV, h₀, lookupKV, ih]

/-- C1: for every record whose `rating`, `distance_from_me` and `id` fields
are numeric, `calculate_score` returns exactly the spec's
`round(((rating*10 - distance_from_me*0.5 + sin(id)*2)*100 + 0.5)/100, 2)`,
with the sine applied to `id` and this order of operations. -/
theorem score_formula_matches_spec (sinF : ℚ → ℚ) (e : JEntry)
    (rating distance id_ : ℚ)
    (hr : getItem e "rating" = .ok (.num rating))
    (hd : getItem e "distance_from_me" = .ok (.num distance))
    (hi : getItem e "id" = .ok (.num id_)) :
    calculate_score sinF e = .ok (spec_score sinF rating distance id_) := by
  simp [calculate_score, hr, hd, hi, toNum, spec_score]

/-- Witness for C1: the formula theorem applied to the concrete record
`entryA`. -/
theorem score_formula_matches_spec_witness :
    (getItem entryA "rating" = .ok (.num 4)
      ∧ getItem entryA "distance_from_me" = .ok (.num 2)
      ∧ getItem entryA "id" = .ok (.num 1))
    ∧ calculate_score sin0 entryA = .ok (spec_score sin0 4 2 1) :=
  ⟨⟨rfl, rfl, rfl⟩, score_formula_matches_spec sin0 entryA 4 2 1 rfl rfl rfl⟩

/-- C2 is a bug in the code: a record missing `rating` is skipped by the
scoring loop but NOT removed from the list, so the sort's key function then
raises an uncaught KeyError('score') and the whole run aborts — nothing is
ranked, written, fetched or posted, while the spec promises the remaining
records are still ranked and written. -/
theorem missing_field_aborts_run :
    py_main sin0 (.parsed (.arr [entryA, entryNoRating])) none
      = .error (.keyError "score") := rfl

/-- C3: when every record's sort key builds, the program's ranking is the
first 10 elements of a permutation of the input ordered by the spec's
composite key: score descending, then rating descending, then distance
ascending, then name ascending (lexicographic, case-sensitive). -/
theorem rank_orders_and_truncates (entries : List JEntry)
    (keyed : List (JEntry × SKey)) (h : decorate entries = .ok keyed) :
    List.Perm ((sort_decorated keyed).map Prod.fst) entries
    ∧ (sort_decorated keyed).Pairwise (fun p q => spec_before (spec_key p.2) (spec_key q.2))
    ∧ rank_top10 entries = .ok (((sort_decorated keyed).map Prod.fst).take 10)
    ∧ (∀ p ∈ keyed, sort_key_of p.1 = .ok p.2) := by
  refine ⟨?_, ?_, ?_, ?_⟩
  · have hp : List.Perm (sort_decorated keyed) keyed := List.perm_insertionSort keyRel keyed
    have hm := hp.map Prod.fst
    rw [decorate_map_fst _ _ h] at hm
    exact hm
  · have hs : (sort_decorated keyed).Pairwise keyRel := by
      haveI : IsTotal (JEntry × SKey) keyRel := ⟨fun p q => tupLe_total p.2 q.2⟩
      haveI : IsTrans (JEntry × SKey) keyRel := ⟨fun _ _ _ h₁ h₂ => tupLe_trans h₁ h₂⟩
      exact List.sorted_insertionSort keyRel keyed
    exact hs.imp (fun hpq => (tupLe_iff_spec _ _).mp hpq)
  · simp [rank_top10, h]
  · exact decorate_keys _ _ h

/-- Witness for C3: the ranking theorem applied to the two concrete scored
records. -/
theorem rank_orders_and_truncates_witness :
    decorate [entryS1, entryS2] = .ok keyedS
    ∧ (List.Perm ((sort_decorated keyedS).map Prod.fst) [entryS1, entryS2]
      ∧ (sort_decorated keyedS).Pairwise
          (fun p q => spec_before (spec_key p.2) (spec_key q.2))
      ∧ rank_top10 [entryS1, entryS2]
          = .ok (((sort_decorated keyedS).map Prod.fst).take 10)
      ∧ (∀ p ∈ keyedS, sort_key_of p.1 = .ok p.2)) :=
  ⟨rfl, rank_orders_and_truncates [entryS1, entryS2] keyedS rfl⟩

/-- C4: the sort is stable.  For any fixed field quadruple, the records
carrying exactly those `score`, `rating`, `distance_from_me` and
`restaurant_name` values appear in the full sorted sequence in their input
order, and the truncated top-10 output keeps an initial segment of that
input-ordered subsequence. -/
theorem rank_stable (entries : List JEntry) (keyed : List (JEntry × SKey))
    (f : ℚ × ℚ × ℚ × String) (h : decorate entries = .ok keyed) :
    ((sort_decorated keyed).map Prod.fst).filter
        (fun e => decide (entry_fields e = some f))
      = entries.filter (fun e => decide (entry_fields e = some f))
    ∧ ∃ t, entries.filter (fun e => decide (entry_fields e = some f))
      = (((sort_decorated keyed).map Prod.fst).take 10).filter
          (fun e => decide (entry_fields e = some f)) ++ t := by
  have hkeys := decorate_keys _ _ h
  have hskeys : ∀ p ∈ sort_decorated keyed, sort_key_of p.1 = .ok p.2 := by
    intro p hp
    exact hkeys p ((List.perm_insertionSort keyRel keyed).mem_iff.mp hp)
  have hf : f = spec_key (spec_key f) := (spec_key_spec_key f).symm
  have main_eq :
      ((sort_decorated keyed).map Prod.fst).filter
          (fun e => decide (entry_fields e = some f))
        = entries.filter (fun e => decide (entry_fields e = some f)) := by
    rw [hf, filter_map_fst _ (spec_key f) hskeys, sort_filter_eq keyed (spec_key f),
      ← filter_map_fst _ (spec_key f) hkeys, decorate_map_fst _ _ h]
  refine ⟨main_eq, ?_⟩
  refine ⟨(((sort_decorated keyed).map Prod.fst).drop 10).filter
      (fun e => decide (entry_fields e = some f)), ?_⟩
  rw [← main_eq, ← List.filter_append, List.take_append_drop]

/-- Witness for C4: the stability theorem applied to two records with
identical score, rating, distance and name. -/
theorem rank_stable_witness :
    decorate [entryS1, entryT2] = .ok keyedT
    ∧ (((sort_decorated keyedT).map Prod.fst).filter
          (fun e => decide (entry_fields e = some (7, 4, 2, "A")))
        = [entryS1, entryT2].filter
          (fun e => decide (entry_fields e = some (7, 4, 2, "A")))
      ∧ ∃ t, [entryS1, entryT2].filter
          (fun e => decide (entry_fields e = some (7, 4, 2, "A")))
        = (((sort_decorated keyedT).map Prod.fst).take 10).filter
            (fun e => decide (entry_fields e = some (7, 4, 2, "A"))) ++ t) :=
  ⟨rfl, rank_stable [entryS1, entryT2] keyedT (7, 4, 2, "A") rfl⟩

/-- C6: wrapping the record array in a `{"data": ...}` envelope changes
nothing: the whole run produces identical results on both inputs. -/
theorem envelope_unwrap (sinF : ℚ → ℚ) (rs : List JEntry) (resp : Option HResp) :
    py_main sinF (.parsed (.obj [("data", .arr rs)])) resp
      = py_main sinF (.parsed (.arr rs)) resp := rfl

/-- C7: a missing input file and malformed JSON both load as the empty list,
and the run then exits early: nothing is written, no token is fetched, and
nothing is posted. -/
theorem missing_input_early_exit (sinF : ℚ → ℚ) (resp : Option HResp) :
    load_validated_data .missing = .arr []
    ∧ load_validated_data .malformed = .arr []
    ∧ py_main sinF .missing resp = .ok ⟨none, false, none⟩
    ∧ py_main sinF .malformed resp = .ok ⟨none, false, none⟩ :=
  ⟨rfl, rfl, rfl, rfl⟩

/-- C8: whenever the token fetch returns `None` — transport error, non-2xx
status, or missing/falsy token field — a run that reaches it completes
gracefully with the output written but no POST issued. -/
theorem no_token_no_post (sinF : ℚ → ℚ) (input : LoadInput) (resp : Option HResp)
    (output : List RRec)
    (htok : get_authorization_token resp = .ok none)
    (hcore : main_core sinF input = .ok (some output)) :
    py_main sinF input resp = .ok ⟨some output, true, none⟩ := by
  simp [py_main, hcore, htok]

/-- Witness for C8: a full run on one good record with a failing token
endpoint writes the output and posts nothing. -/
theorem no_token_no_post_witness :
    (get_authorization_token respFail = .ok none
      ∧ main_core sin0 (.parsed (.arr [entryA])) = .ok (some outputA))
    ∧ py_main sin0 (.parsed (.arr [entryA])) respFail = .ok ⟨some outputA, true, none⟩ :=
  ⟨⟨rfl, rfl⟩, no_token_no_post sin0 (.parsed (.arr [entryA])) respFail outputA rfl rfl⟩

/-- C9: the computed score depends only on the `rating`, `distance_from_me`
and `id` fields: two entries agreeing on those three lookups get identical
score results, whatever their other fields. -/
theorem score_depends_only_on_inputs (sinF : ℚ → ℚ) (e₁ e₂ : JEntry)
    (hr : getItem e₁ "rating" = getItem e₂ "rating")
    (hd : getItem e₁ "distance_from_me" = getItem e₂ "distance_from_me")
    (hi : getItem e₁ "id" = getItem e₂ "id") :
    calculate_score sinF e₁ = calculate_score sinF e₂ := by
  simp only [calculate_score, hr, hd, hi]

/-- Witness for C9: the noninterference theorem applied to `entryA` and
`entryA2`. -/
theorem score_depends_only_on_inputs_witness :
    (getItem entryA "rating" = getItem entryA2 "rating"
      ∧ getItem entryA "distance_from_me" = getItem entryA2 "distance_from_me"
      ∧ getItem entryA "id" = getItem entryA2 "id")
    ∧ calculate_score sin0 entryA = calculate_score sin0 entryA2 :=
  ⟨⟨rfl, rfl, rfl⟩, score_depends_only_on_inputs sin0 entryA entryA2 rfl rfl rfl⟩

/-- C10: on a successfully scored record the scoring loop changes exactly the
key `score` (every other key keeps its binding), and the output projection
copies the stored field values unchanged. -/
theorem score_mutation_frame (sinF : ℚ → ℚ) (fields : Fields) (s : ℚ)
    (hs : calculate_score sinF (.obj fields) = .ok s)
    (idv namev ratingv distancev : JVal)
    (hid : lookupKV fields "id" = some idv)
    (hname : lookupKV fields "restaurant_name" = some namev)
    (hrating : lookupKV fields "rating" = some ratingv)
    (hdist : lookupKV fields "distance_from_me" = some distancev) :
    score_entry sinF (.obj fields) = .obj (setKV fields "score" (.num s))
    ∧ (∀ key : String, key ≠ "score" →
        lookupKV (setKV fields "score" (.num s)) key = lookupKV fields key)
    ∧ lookupKV (setKV fields "score" (.num s)) "score" = some (.num s)
    ∧ project_entry (score_entry sinF (.obj fields))
        = .ok ⟨idv, namev, ratingv, distancev, .num s⟩ := by
  refine ⟨?_, ?_, ?_, ?_⟩
  · simp [score_entry, hs]
  · intro key hkey
    exact lookupKV_setKV_ne fields "score" key (.num s) hkey
  · exact lookupKV_setKV_self fields "score" (.num s)
  · have h1 : score_entry sinF (.obj fields) = .obj (setKV fields "score" (.num s)) := by
      simp [score_entry, hs]
    rw [h1]
    simp [project_entry, getItem,
      lookupKV_setKV_ne fields "score" "id" (.num s) (by decide),
      lookupKV_setKV_ne fields "score" "restaurant_name" (.num s) (by decide),
      lookupKV_setKV_ne fields "score" "rating" (.num s) (by decide),
      lookupKV_setKV_ne fields "score" "distance_from_me" (.num s) (by decide),
      lookupKV_setKV_self fields "score" (.num s), hid, hname, hrating, hdist]

/-- Witness for C10: the frame theorem applied to the concrete record
`fieldsA`. -/
theorem score_mutation_frame_witness :
    (calculate_score sin0 (.obj fieldsA) = .ok scoreA
      ∧ lookupKV fieldsA "id" = some (.num 1)
      ∧ lookupKV fieldsA "restaurant_name" = some (.str "A")
      ∧ lookupKV fieldsA "rating" = some (.num 4)
      ∧ lookupKV fieldsA "distance_from_me" = some (.num 2))
    ∧ (score_entry sin0 (.obj fieldsA) = .obj (setKV fieldsA "score" (.num scoreA))
      ∧ (∀ key : String, key ≠ "score" →
          lookupKV (setKV fieldsA "score" (.num scoreA)) key = lookupKV fieldsA key)
      ∧ lookupKV (setKV fieldsA "score" (.num scoreA)) "score" = some (.num scoreA)
      ∧ project_entry (score_entry sin0 (.obj fieldsA))
          = .ok ⟨.num 1, .str "A", .num 4, .num 2, .num scoreA⟩) :=
  ⟨⟨rfl, rfl, rfl, rfl, rfl⟩,
    score_mutation_frame sin0 fieldsA scoreA rfl (.num 1) (.str "A") (.num 4) (.num 2)
      rfl rfl rfl rfl⟩
